import Mathlib

/-!
Shallow embedding of the opensway media-generation service, covering the
model resource pool (`src/workers/model_loader.py`), the admission layer
(`src/api/auth.py`, `src/api/routers/generate.py`), the task routes
(`src/api/routers/tasks.py`), the image worker
(`src/workers/image_worker.py`) and the thread-interleaving behaviour of
unsynchronized workers sharing the pool.

Python floats (VRAM gigabytes) are embedded as integers: every VRAM
quantity appearing in the registry, the spec and the claims is an integral
number of gigabytes, on which the float additions, subtractions, `max` and
comparisons the code performs are exact.  The yaml model registry and the
detected VRAM capacity are external inputs and are therefore parameters of
the pool state.
-/

namespace Opensway

/-- Contents of `config/models.yaml`: model name ↦ `vram_gb`. -/
abbrev Registry := List (String × Int)

/-- `ModelPool._model_vram`: `self.registry.get(model_name, {}).get("vram_gb", 4.0)`. -/
def modelVram (reg : Registry) (n : String) : Int :=
  ((reg.find? (fun e => e.1 == n)).map Prod.snd).getD 4

/-- State of `ModelPool` (`src/workers/model_loader.py`).  `pool` embeds the
`OrderedDict`: front of the list is the oldest (least recently used) entry.
Handles are identified by their load sequence number, so a reloaded model
yields a distinguishable handle; `loadEvents` records every invocation of a
per-model loader, newest last. -/
structure ModelPool where
  registry : Registry
  available_vram : Int
  used_vram : Int
  pool : List (String × Nat)
  loadSeq : Nat
  loadEvents : List String
  deriving DecidableEq, Repr

/-- A freshly constructed `ModelPool()` for a given registry and detected VRAM. -/
def ModelPool.init (reg : Registry) (avail : Int) : ModelPool :=
  { registry := reg, available_vram := avail, used_vram := 0,
    pool := [], loadSeq := 0, loadEvents := [] }

def ModelPool.model_vram (p : ModelPool) (n : String) : Int :=
  modelVram p.registry n

/-- The `while` loop of `ModelPool._evict_lru`: while
`used_vram + needed > available_vram` and the pool is non-empty, pop the
oldest entry and subtract its footprint (clamped at 0). -/
def evictLoop (reg : Registry) (avail needed : Int) :
    Int → List (String × Nat) → Int × List (String × Nat)
  | used, [] => (used, [])
  | used, (name, h) :: rest =>
    if used + needed > avail then
      evictLoop reg avail needed (max 0 (used - modelVram reg name)) rest
    else
      (used, (name, h) :: rest)

/-- `ModelPool._evict_lru(needed_gb)`. -/
def ModelPool.evict_lru (p : ModelPool) (needed : Int) : ModelPool :=
  let r := evictLoop p.registry p.available_vram needed p.used_vram p.pool
  { p with used_vram := r.1, pool := r.2 }

/-- The keys of the hard-coded `loaders` dict in `ModelPool._load`. -/
def LOADERS : List String :=
  ["flux_schnell", "flux_dev", "kokoro", "demucs", "ltx_video", "hunyuan_video"]

/-- `ModelPool._load`: dispatch to a per-model loader, raising `ValueError`
when no loader is registered.  The loader returns a fresh handle. -/
def ModelPool.load (p : ModelPool) (n : String) : Except String (Nat × ModelPool) :=
  if LOADERS.contains n then
    .ok (p.loadSeq,
      { p with loadSeq := p.loadSeq + 1, loadEvents := p.loadEvents ++ [n] })
  else
    .error ("No loader registered for model: " ++ n)

/-- `ModelPool.get(model_name)`.  On a hit: `move_to_end` then return the
stored handle.  On a miss: `_evict_lru(needed)`, then `_load` (which may
raise, leaving the evictions in place), then insert as most recently used
and add `needed` to `used_vram`.  An error carries the mutated state. -/
def ModelPool.get (p : ModelPool) (n : String) :
    Except (String × ModelPool) (Nat × ModelPool) :=
  match p.pool.find? (fun e => e.1 == n) with
  | some e =>
    .ok (e.2, { p with pool := p.pool.filter (fun x => !(x.1 == n)) ++ [(n, e.2)] })
  | none =>
    let needed := p.model_vram n
    let p1 := p.evict_lru needed
    match p1.load n with
    | .error msg => .error (msg, p1)
    | .ok (h, p2) =>
      .ok (h, { p2 with pool := p2.pool ++ [(n, h)],
                        used_vram := p2.used_vram + needed })

/-- The pool state after a `get` call, whether it returned or raised. -/
def ModelPool.getState (p : ModelPool) (n : String) : ModelPool :=
  match p.get n with
  | .ok r => r.2
  | .error r => r.2

/-- Run a sequence of `get` calls, threading the pool state. -/
def runCalls (p : ModelPool) (calls : List String) : ModelPool :=
  calls.foldl ModelPool.getState p

/-- Names of the resident entries, oldest first. -/
def keys (l : List (String × Nat)) : List String := l.map Prod.fst

/-- Sum of the registered footprints of a list of resident entries. -/
def sumFp (reg : Registry) (l : List (String × Nat)) : Int :=
  (l.map (fun e => modelVram reg e.1)).sum

/-! ## Admission layer and task routes

`src/db/models.py`, `src/api/auth.py`, `src/api/routers/generate.py`,
`src/api/routers/tasks.py`.  Timestamps are abstract ticks; the task's
`status` column is the string the code stores. -/

/-- Row of the `api_keys` table (the fields the routes read). -/
structure ApiKey where
  id : String
  credit_balance : Int
  deriving DecidableEq, Repr

/-- Row of the `tasks` table (the fields this core reads or writes). -/
structure Task where
  id : String
  status : String
  model : String
  endpoint : String
  created_at : Nat
  started_at : Option Nat
  ended_at : Option Nat
  progress : Int
  output_urls : Option (List String)
  error : Option String
  webhook_url : Option String
  api_key_id : Option String
  deriving DecidableEq, Repr

/-- The task store (the `tasks` table). -/
structure Store where
  tasks : List Task
  deriving DecidableEq, Repr

/-- An `HTTPException(status_code, detail)`. -/
structure HttpError where
  status_code : Nat
  detail : String
  deriving DecidableEq, Repr

/-- `require_credits(min_credits)` (`src/api/auth.py`): reject with 402 when
the key's balance is below the endpoint's cost. -/
def require_credits (min_credits : Int) (api_key : ApiKey) : Except HttpError ApiKey :=
  if api_key.credit_balance < min_credits then
    .error ⟨402, "You do not have enough credits to run this task."⟩
  else
    .ok api_key

/-- The fixed per-endpoint cost table: the `require_credits(c)` argument on
each route decorator in `src/api/routers/generate.py`. -/
def endpointCost : String → Option Int
  | "image_to_video" => some 5
  | "text_to_video" => some 5
  | "video_to_video" => some 8
  | "text_to_image" => some 2
  | "character_performance" => some 5
  | "text_to_speech" => some 1
  | "speech_to_speech" => some 2
  | "sound_effect" => some 2
  | "voice_isolation" => some 1
  | "voice_dubbing" => some 20
  | _ => none

/-- `MODEL_TASK_MAP`: model name ↦ (Celery task name, queue). -/
def MODEL_TASK_MAP : List (String × String × String) :=
  [("ltx_video", "workers.video_worker.generate_video", "video"),
   ("hunyuan_video", "workers.video_worker.generate_video", "video"),
   ("cogvideox", "workers.video_worker.generate_video", "video"),
   ("animatediff", "workers.video_worker.generate_video", "video"),
   ("flux_schnell", "workers.image_worker.generate_image", "image"),
   ("flux_dev", "workers.image_worker.generate_image", "image"),
   ("sd35_large", "workers.image_worker.generate_image", "image"),
   ("kokoro", "workers.audio_worker.text_to_speech", "audio"),
   ("f5_tts", "workers.audio_worker.text_to_speech", "audio"),
   ("rvc", "workers.audio_worker.speech_to_speech", "audio"),
   ("audiocraft_audiogen", "workers.audio_worker.sound_effect", "audio"),
   ("demucs", "workers.audio_worker.voice_isolation", "audio"),
   ("dubbing_pipeline", "workers.audio_worker.voice_dubbing", "audio"),
   ("live_portrait", "workers.audio_worker.character_performance", "audio")]

/-- `_create_task`: build a PENDING task row (committed by the caller). -/
def create_task (api_key : ApiKey) (model endpoint : String)
    (webhook_url : Option String) (newId : String) (now : Nat) : Task :=
  { id := newId, status := "PENDING", model := model, endpoint := endpoint,
    created_at := now, started_at := none, ended_at := none, progress := 0,
    output_urls := none, error := none, webhook_url := webhook_url,
    api_key_id := some api_key.id }

/-- `_enqueue(task)`: look the model up in `MODEL_TASK_MAP` (default
`(None, "image")`) and raise 422 when there is no task name; the actual
thread dispatch is a side effect outside the store. -/
def enqueue (task : Task) : Except HttpError Unit :=
  match MODEL_TASK_MAP.find? (fun e => e.1 == task.model) with
  | none => .error ⟨422, "Unknown model: " ++ task.model⟩
  | some _ => .ok ()

/-- A generation route handler.  Every one of the ten endpoints in
`src/api/routers/generate.py` has the same body: the `require_credits`
dependency runs first, then `_create_task` (which commits the new row),
then `_enqueue`.  Returns the response and the resulting store. -/
def submit (endpoint model : String) (webhook_url : Option String)
    (api_key : ApiKey) (newId : String) (now : Nat) (store : Store) :
    Except HttpError Task × Store :=
  match endpointCost endpoint with
  | none => (.error ⟨404, "Not Found"⟩, store)
  | some cost =>
    match require_credits cost api_key with
    | .error e => (.error e, store)
    | .ok key =>
      let task := create_task key model endpoint webhook_url newId now
      let store1 : Store := ⟨store.tasks ++ [task]⟩
      match enqueue task with
      | .error e => (.error e, store1)
      | .ok _ => (.ok task, store1)

/-- Replace the first row matching `p` (the sqlalchemy `.first()` +
mutate + commit pattern). -/
def updateFirst (p : Task → Bool) (f : Task → Task) : List Task → List Task
  | [] => []
  | t :: ts => if p t then f t :: ts else t :: updateFirst p f ts

/-- The owner-scoped query both task routes start with:
`db.query(Task).filter(Task.id == task_id, Task.api_key_id == api_key.id).first()`. -/
def findOwnedTask (store : Store) (task_id key_id : String) : Option Task :=
  store.tasks.find? (fun t => t.id == task_id && t.api_key_id == some key_id)

/-- `GET /v1/tasks/{task_id}` (`src/api/routers/tasks.py`). -/
def get_task (task_id : String) (api_key : ApiKey) (store : Store) :
    Except HttpError Task :=
  match findOwnedTask store task_id api_key.id with
  | none => .error ⟨404, "Task not found"⟩
  | some t => .ok t

/-- `DELETE /v1/tasks/{task_id}`: 404 when no owned row matches; terminalize
a PENDING/THROTTLED task as FAILED with error `Cancelled by user`; a RUNNING
task is left untouched (best-effort revoke only). -/
def cancel_task (task_id : String) (api_key : ApiKey) (store : Store) :
    Except HttpError Unit × Store :=
  match findOwnedTask store task_id api_key.id with
  | none => (.error ⟨404, "Task not found"⟩, store)
  | some t =>
    if t.status == "PENDING" || t.status == "THROTTLED" then
      (.ok (), ⟨updateFirst
        (fun u => u.id == task_id && u.api_key_id == some api_key.id)
        (fun u => { u with status := "FAILED", error := some "Cancelled by user" })
        store.tasks⟩)
    else
      (.ok (), store)

/-! ## Task executor (`src/workers/image_worker.py`)

The backend phase — `pool.get`, the pipeline invocation and the storage
write — is the opaque collaborator; it is a parameter `backend` that either
produces a durable output location or raises with a message.  Webhook
delivery is the fire-and-forget collaborator: `deliveryOk` says whether the
`httpx.post` succeeds, and the list of attempts made is returned. -/

/-- One attempted webhook delivery: target and JSON payload. -/
structure WebhookAttempt where
  url : String
  payload_id : String
  payload_status : String
  payload_output : List String
  deriving DecidableEq, Repr

/-- `_fire_webhook(task)`: no-op without a configured URL, otherwise one
`httpx.post`; a delivery failure is caught and logged only. -/
def fire_webhook (task : Task) (deliveryOk : Bool) : List WebhookAttempt :=
  match task.webhook_url with
  | none => []
  | some url =>
    -- the attempt happens whether or not delivery succeeds; the `except`
    -- branch only logs, so `deliveryOk` influences nothing observable
    let _ := deliveryOk
    [⟨url, task.id, task.status, task.output_urls.getD []⟩]

/-- Commit the mutated ORM row back to the store. -/
def commitTask (store : Store) (t : Task) : Store :=
  ⟨updateFirst (fun u => u.id == t.id) (fun _ => t) store.tasks⟩

/-- `_update_task(task_id, **kwargs)`: fresh session, re-query by id,
mutate, commit. -/
def update_task (store : Store) (task_id : String) (f : Task → Task) : Store :=
  ⟨updateFirst (fun u => u.id == task_id) f store.tasks⟩

/-- `generate_image(task_id)` (`src/workers/image_worker.py`); the video
worker's `generate_video` has the identical status/webhook skeleton.
Returns the resulting store and the webhook deliveries attempted. -/
def generate_image (backend : Except String String) (deliveryOk : Bool)
    (task_id : String) (now : Nat) (store : Store) : Store × List WebhookAttempt :=
  match store.tasks.find? (fun t => t.id == task_id) with
  | none => (store, [])
  | some t =>
    let t1 : Task := { t with status := "RUNNING", started_at := some now, progress := 10 }
    let store1 := commitTask store t1
    let t2 : Task := { t1 with progress := 30 }
    let store2 := commitTask store1 t2
    match backend with
    | .error e =>
      (update_task store2 task_id
        (fun u => { u with status := "FAILED", error := some e, ended_at := some now }), [])
    | .ok url =>
      let t3 : Task := { t2 with progress := 80 }
      let store3 := commitTask store2 t3
      let t4 : Task := { t3 with status := "SUCCEEDED", output_urls := some [url],
                                 ended_at := some now, progress := 100 }
      let store4 := commitTask store3 t4
      (store4, fire_webhook t4 deliveryOk)

/-- The data-model invariant of interest for the task lifecycle:
`endedAt` is set if and only if the status is terminal. -/
def endedIffTerminal (t : Task) : Prop :=
  t.ended_at.isSome ↔ (t.status = "SUCCEEDED" ∨ t.status = "FAILED")

/-! ## Interleaved workers sharing the pool

Two tasks execute on independent threads (`_enqueue` starts a raw
`threading.Thread` per task) and share one `ModelPool`.  The pool code in
`src/workers/model_loader.py` takes no lock of any kind, so each worker is
a sequence of unsynchronized steps: call `pool.get`, then enter the backend
invocation (`pipe(...)`), then leave it.  A schedule is the interleaving
order; `pool.get` is generously treated as one atomic step. -/

/-- Phase of one worker thread. -/
inductive WPhase where
  | ready
  | gotHandle (h : Nat)
  | invoking (h : Nat)
  | finished
  deriving DecidableEq, Repr

/-- Two worker threads (their requested models and phases) plus the shared
pool. -/
structure TwoWorkers where
  pool : ModelPool
  m1 : String
  w1 : WPhase
  m2 : String
  w2 : WPhase
  deriving DecidableEq, Repr

/-- One step of a single worker: `pool.get`, then begin the backend
invocation on the obtained handle, then complete it.  A `get` failure is
caught by the worker's `try` and terminates it. -/
def wstep (p : ModelPool) (m : String) : WPhase → WPhase × ModelPool
  | .ready =>
    match p.get m with
    | .ok (h, p1) => (.gotHandle h, p1)
    | .error (_, p1) => (.finished, p1)
  | .gotHandle h => (.invoking h, p)
  | .invoking _ => (.finished, p)
  | .finished => (.finished, p)

/-- Scheduler step: run one step of worker 1 (`true`) or worker 2 (`false`). -/
def sysStep (s : TwoWorkers) (who : Bool) : TwoWorkers :=
  if who then
    let r := wstep s.pool s.m1 s.w1
    { s with w1 := r.1, pool := r.2 }
  else
    let r := wstep s.pool s.m2 s.w2
    { s with w2 := r.1, pool := r.2 }

/-- Run a schedule (a list of thread choices). -/
def runSched (s : TwoWorkers) (sched : List Bool) : TwoWorkers :=
  sched.foldl sysStep s

/-- Initial system: fresh pool, both workers about to request their model. -/
def initTwo (reg : Registry) (avail : Int) (m1 m2 : String) : TwoWorkers :=
  { pool := ModelPool.init reg avail, m1 := m1, w1 := .ready, m2 := m2, w2 := .ready }

/-! ## Pool bookkeeping lemmas -/

/-- The bookkeeping invariant of the pool: `used_vram` equals the sum of
the resident footprints, fits the budget, and resident names are unique. -/
def PoolInv (p : ModelPool) : Prop :=
  p.used_vram = sumFp p.registry p.pool ∧
  p.used_vram ≤ p.available_vram ∧
  (keys p.pool).Nodup

/-- A well-formed configuration: every footprint the registry can produce
(the 4 GB default included) is nonnegative and fits in the budget. -/
def FitsBudget (reg : Registry) (avail : Int) : Prop :=
  ∀ n, 0 ≤ modelVram reg n ∧ modelVram reg n ≤ avail

theorem sumFp_nil (reg : Registry) : sumFp reg [] = 0 := rfl

theorem sumFp_cons (reg : Registry) (e : String × Nat) (l : List (String × Nat)) :
    sumFp reg (e :: l) = modelVram reg e.1 + sumFp reg l := by
  simp [sumFp]

theorem sumFp_append (reg : Registry) (l₁ l₂ : List (String × Nat)) :
    sumFp reg (l₁ ++ l₂) = sumFp reg l₁ + sumFp reg l₂ := by
  simp [sumFp]

theorem sumFp_nonneg (reg : Registry) (Hnn : ∀ n, 0 ≤ modelVram reg n)
    (l : List (String × Nat)) : 0 ≤ sumFp reg l := by
  refine List.sum_nonneg ?_
  intro x hx
  obtain ⟨e, _, rfl⟩ := List.mem_map.mp hx
  exact Hnn e.1

theorem evictLoop_suffix (reg : Registry) (avail needed : Int) :
    ∀ (l : List (String × Nat)) (used : Int),
      (evictLoop reg avail needed used l).2 <:+ l := by
  intro l
  induction l with
  | nil => intro used; simp [evictLoop]
  | cons a rest ih =>
    intro used
    obtain ⟨name, hdl⟩ := a
    simp only [evictLoop]
    split
    · exact (ih _).trans (List.suffix_cons _ _)
    · exact List.suffix_refl _

theorem evictLoop_spec (reg : Registry) (avail needed : Int)
    (Hnn : ∀ n, 0 ≤ modelVram reg n) :
    ∀ (l : List (String × Nat)) (used : Int), used = sumFp reg l →
      (evictLoop reg avail needed used l).1 =
          sumFp reg (evictLoop reg avail needed used l).2 ∧
        ((evictLoop reg avail needed used l).1 + needed ≤ avail ∨
          (evictLoop reg avail needed used l).2 = []) := by
  intro l
  induction l with
  | nil =>
    intro used h
    constructor
    · simpa [evictLoop] using h
    · simp [evictLoop]
  | cons a rest ih =>
    intro used h
    obtain ⟨name, hdl⟩ := a
    rw [sumFp_cons] at h
    have h' : used = modelVram reg name + sumFp reg rest := h
    simp only [evictLoop]
    split
    · have hnn : 0 ≤ sumFp reg rest := sumFp_nonneg reg Hnn rest
      have hmax : max 0 (used - modelVram reg name) = sumFp reg rest := by
        have h2 : used - modelVram reg name = sumFp reg rest := by omega
        rw [h2]
        exact max_eq_right hnn
      exact ih _ hmax
    · next hc =>
      constructor
      · rw [sumFp_cons]; exact h
      · left; omega

theorem keys_not_mem_of_find?_none (l : List (String × Nat)) (n : String)
    (hf : l.find? (fun x => x.1 == n) = none) : n ∉ keys l := by
  intro hmem
  obtain ⟨e, he, hee⟩ := List.mem_map.mp (show n ∈ l.map Prod.fst from hmem)
  have hne := List.find?_eq_none.mp hf e he
  simp [hee] at hne

theorem mem_keys_of_find?_some (l : List (String × Nat)) (n : String)
    (e : String × Nat) (hf : l.find? (fun x => x.1 == n) = some e) :
    n ∈ keys l ∧ e.1 = n := by
  have h1 := List.find?_some hf
  have h2 : e ∈ l := List.mem_of_find?_eq_some hf
  have h3 : e.1 = n := by simpa using h1
  exact ⟨h3 ▸ List.mem_map_of_mem Prod.fst h2, h3⟩

theorem sumFp_filter_of_mem (reg : Registry) (n : String) :
    ∀ (l : List (String × Nat)), (keys l).Nodup → n ∈ keys l →
      sumFp reg (l.filter (fun x => !(x.1 == n))) =
        sumFp reg l - modelVram reg n := by
  intro l
  induction l with
  | nil => intro _ h; simp [keys] at h
  | cons a rest ih =>
    intro hnd hmem
    obtain ⟨name, hdl⟩ := a
    have hnd2 : (keys rest).Nodup ∧ name ∉ keys rest := by
      have := List.nodup_cons.mp (show ((name, hdl).1 :: keys rest).Nodup from hnd)
      exact ⟨this.2, this.1⟩
    by_cases hn : name = n
    · subst hn
      have hfil : rest.filter (fun x => !(x.1 == name)) = rest := by
        refine List.filter_eq_self.mpr ?_
        intro x hx
        have : x.1 ≠ name := by
          intro hxe
          exact hnd2.2 (hxe ▸ List.mem_map_of_mem Prod.fst hx)
        simp [this]
      simp only [List.filter_cons]
      have hhead : (!((name, hdl).1 == name)) = false := by simp
      rw [hhead]
      simp only [Bool.false_eq_true, if_false, hfil, sumFp_cons]
      omega
    · have hmem2 : n ∈ keys rest := by
        rcases List.mem_cons.mp (show n ∈ (name, hdl).1 :: keys rest from hmem) with h | h
        · exact absurd h.symm hn
        · exact h
      simp only [List.filter_cons]
      have hhead : (!((name, hdl).1 == n)) = true := by simp [hn]
      rw [hhead]
      simp only [if_true, sumFp_cons, ih hnd2.1 hmem2]
      omega

theorem keys_moveToEnd_nodup (l : List (String × Nat)) (n : String) (h : Nat)
    (hnd : (keys l).Nodup) :
    (keys (l.filter (fun x => !(x.1 == n)) ++ [(n, h)])).Nodup := by
  have hsub : (keys (l.filter (fun x => !(x.1 == n)))).Nodup :=
    hnd.sublist ((List.filter_sublist l).map Prod.fst)
  have hnotin : n ∉ keys (l.filter (fun x => !(x.1 == n))) := by
    intro hmem
    obtain ⟨e, he, hee⟩ := List.mem_map.mp hmem
    have := (List.mem_filter.mp he).2
    simp [hee] at this
  have : keys (l.filter (fun x => !(x.1 == n)) ++ [(n, h)]) =
      keys (l.filter (fun x => !(x.1 == n))) ++ [n] := by
    simp [keys]
  rw [this]
  refine List.Nodup.append hsub (List.nodup_singleton n) ?_
  intro x hx hx2
  rw [List.mem_singleton.mp hx2] at hx
  exact hnotin hx

theorem mem_keys_moveToEnd (l : List (String × Nat)) (n : String) (h : Nat)
    (hn : n ∈ keys l) (m : String) :
    m ∈ keys (l.filter (fun x => !(x.1 == n)) ++ [(n, h)]) ↔ m ∈ keys l := by
  have hkeys : keys (l.filter (fun x => !(x.1 == n)) ++ [(n, h)]) =
      keys (l.filter (fun x => !(x.1 == n))) ++ [n] := by
    simp [keys]
  rw [hkeys, List.mem_append, List.mem_singleton]
  by_cases hm : m = n
  · subst hm; simp [hn]
  · simp only [hm, or_false]
    constructor
    · intro hmem
      obtain ⟨e, he, hee⟩ := List.mem_map.mp hmem
      exact hee ▸ List.mem_map_of_mem Prod.fst (List.mem_filter.mp he).1
    · intro hmem
      obtain ⟨e, he, hee⟩ := List.mem_map.mp hmem
      refine hee ▸ List.mem_map_of_mem Prod.fst (List.mem_filter.mpr ⟨he, ?_⟩)
      simp [hee ▸ hm]

theorem find?_append_matchLast (A : List (String × Nat)) (n : String) (h : Nat)
    (hA : ∀ x ∈ A, (x.1 == n) = false) :
    (A ++ [(n, h)]).find? (fun x => x.1 == n) = some (n, h) := by
  rw [List.find?_append]
  have hnone : A.find? (fun x => x.1 == n) = none :=
    List.find?_eq_none.mpr (fun a ha => by simp [hA a ha])
  simp [hnone]

/-- Branch equation: cache hit. -/
theorem get_hit (p : ModelPool) (n : String) (e : String × Nat)
    (hf : p.pool.find? (fun x => x.1 == n) = some e) :
    p.get n = .ok (e.2,
      { p with pool := p.pool.filter (fun x => !(x.1 == n)) ++ [(n, e.2)] }) := by
  simp [ModelPool.get, hf]

/-- Branch equation: cache miss with a registered loader. -/
theorem get_miss_ok (p : ModelPool) (n : String)
    (hf : p.pool.find? (fun x => x.1 == n) = none)
    (hc : LOADERS.contains n = true) :
    p.get n = .ok (p.loadSeq,
      { registry := p.registry, available_vram := p.available_vram,
        used_vram := (p.evict_lru (p.model_vram n)).used_vram + p.model_vram n,
        pool := (p.evict_lru (p.model_vram n)).pool ++ [(n, p.loadSeq)],
        loadSeq := p.loadSeq + 1,
        loadEvents := p.loadEvents ++ [n] }) := by
  have hm : n ∈ LOADERS := by simpa using hc
  simp [ModelPool.get, hf, ModelPool.load, hm, ModelPool.evict_lru]

/-- Branch equation: cache miss without a registered loader (the
`ValueError` path; the evictions already performed stay). -/
theorem get_miss_err (p : ModelPool) (n : String)
    (hf : p.pool.find? (fun x => x.1 == n) = none)
    (hc : LOADERS.contains n = false) :
    p.get n = .error ("No loader registered for model: " ++ n,
      p.evict_lru (p.model_vram n)) := by
  have hm : n ∉ LOADERS := by simpa using hc
  simp [ModelPool.get, hf, ModelPool.load, hm]

/-- `get` preserves the bookkeeping invariant and never touches the
registry or the detected capacity, provided every footprint fits in the
budget. -/
theorem getState_inv (p : ModelPool) (n : String)
    (Hfit : FitsBudget p.registry p.available_vram) (Hinv : PoolInv p) :
    PoolInv (p.getState n) ∧ (p.getState n).registry = p.registry ∧
      (p.getState n).available_vram = p.available_vram := by
  have Hnn : ∀ m, 0 ≤ modelVram p.registry m := fun m => (Hfit m).1
  have Havail : (0:Int) ≤ p.available_vram := le_trans (Hfit n).1 (Hfit n).2
  obtain ⟨Hsum, Hle, Hnd⟩ := Hinv
  cases hf : p.pool.find? (fun x => x.1 == n) with
  | some e =>
    obtain ⟨hmem, _⟩ := mem_keys_of_find?_some p.pool n e hf
    have hstate : p.getState n =
        { p with pool := p.pool.filter (fun x => !(x.1 == n)) ++ [(n, e.2)] } := by
      simp [ModelPool.getState, get_hit p n e hf]
    rw [hstate]
    refine ⟨⟨?_, Hle, keys_moveToEnd_nodup p.pool n e.2 Hnd⟩, rfl, rfl⟩
    show p.used_vram =
      sumFp p.registry (p.pool.filter (fun x => !(x.1 == n)) ++ [(n, e.2)])
    rw [sumFp_append, sumFp_filter_of_mem p.registry n p.pool Hnd hmem,
      sumFp_cons, sumFp_nil]
    have hfst : modelVram p.registry (n, e.2).1 = modelVram p.registry n := rfl
    rw [hfst]
    omega
  | none =>
    have hnotin : n ∉ keys p.pool := keys_not_mem_of_find?_none p.pool n hf
    have Espec := evictLoop_spec p.registry p.available_vram
      (p.model_vram n) Hnn p.pool p.used_vram Hsum
    have Esuf := evictLoop_suffix p.registry p.available_vram
      (p.model_vram n) p.pool p.used_vram
    have hev1 : (p.evict_lru (p.model_vram n)).used_vram =
        (evictLoop p.registry p.available_vram (p.model_vram n) p.used_vram p.pool).1 := rfl
    have hev2 : (p.evict_lru (p.model_vram n)).pool =
        (evictLoop p.registry p.available_vram (p.model_vram n) p.used_vram p.pool).2 := rfl
    have End : (keys (p.evict_lru (p.model_vram n)).pool).Nodup := by
      rw [hev2]; exact Hnd.sublist (Esuf.sublist.map Prod.fst)
    have Enotin : n ∉ keys (p.evict_lru (p.model_vram n)).pool := by
      rw [hev2]; exact fun hmem => hnotin (Esuf.sublist.map Prod.fst |>.subset hmem)
    have Esum : (p.evict_lru (p.model_vram n)).used_vram =
        sumFp p.registry (p.evict_lru (p.model_vram n)).pool := by
      rw [hev1, hev2]; exact Espec.1
    have Ebound : (p.evict_lru (p.model_vram n)).used_vram + p.model_vram n ≤
        p.available_vram ∨ (p.evict_lru (p.model_vram n)).pool = [] := by
      rw [hev1, hev2]; exact Espec.2
    by_cases hc : LOADERS.contains n = true
    · have hstate : p.getState n =
          { registry := p.registry, available_vram := p.available_vram,
            used_vram := (p.evict_lru (p.model_vram n)).used_vram + p.model_vram n,
            pool := (p.evict_lru (p.model_vram n)).pool ++ [(n, p.loadSeq)],
            loadSeq := p.loadSeq + 1,
            loadEvents := p.loadEvents ++ [n] } := by
        simp [ModelPool.getState, get_miss_ok p n hf hc]
      rw [hstate]
      refine ⟨⟨?_, ?_, ?_⟩, rfl, rfl⟩
      · show (p.evict_lru (p.model_vram n)).used_vram + p.model_vram n =
          sumFp p.registry ((p.evict_lru (p.model_vram n)).pool ++ [(n, p.loadSeq)])
        rw [sumFp_append, sumFp_cons, sumFp_nil, Esum]
        have hfst : modelVram p.registry (n, p.loadSeq).1 = p.model_vram n := rfl
        rw [hfst]
        omega
      · show (p.evict_lru (p.model_vram n)).used_vram + p.model_vram n ≤
          p.available_vram
        rcases Ebound with h2 | h2
        · exact h2
        · rw [Esum, h2, sumFp_nil]
          have hle2 : p.model_vram n ≤ p.available_vram := (Hfit n).2
          omega
      · show (keys ((p.evict_lru (p.model_vram n)).pool ++ [(n, p.loadSeq)])).Nodup
        have hkeys : keys ((p.evict_lru (p.model_vram n)).pool ++ [(n, p.loadSeq)]) =
            keys (p.evict_lru (p.model_vram n)).pool ++ [n] := by
          simp [keys]
        rw [hkeys]
        refine List.Nodup.append End (List.nodup_singleton n) ?_
        intro x hx hx2
        rw [List.mem_singleton.mp hx2] at hx
        exact Enotin hx
    · have hc2 : LOADERS.contains n = false := by
        revert hc
        cases LOADERS.contains n <;> simp
      have hstate : p.getState n = p.evict_lru (p.model_vram n) := by
        simp [ModelPool.getState, get_miss_err p n hf hc2]
      rw [hstate]
      refine ⟨⟨Esum, ?_, End⟩, rfl, rfl⟩
      show (p.evict_lru (p.model_vram n)).used_vram ≤ p.available_vram
      rcases Ebound with h2 | h2
      · have hnd : 0 ≤ p.model_vram n := (Hfit n).1
        omega
      · rw [Esum, h2, sumFp_nil]
        exact Havail

/-- The invariant holds after every sequence of `get` calls. -/
theorem runCalls_inv (calls : List String) :
    ∀ (p : ModelPool), FitsBudget p.registry p.available_vram → PoolInv p →
      PoolInv (runCalls p calls) ∧ (runCalls p calls).registry = p.registry ∧
        (runCalls p calls).available_vram = p.available_vram := by
  induction calls with
  | nil => intro p _ hinv; exact ⟨hinv, rfl, rfl⟩
  | cons c cs ih =>
    intro p hfit hinv
    obtain ⟨hinv1, hreg, hav⟩ := getState_inv p c hfit hinv
    have hfit1 : FitsBudget (p.getState c).registry (p.getState c).available_vram := by
      rw [hreg, hav]; exact hfit
    have hrun : runCalls p (c :: cs) = runCalls (p.getState c) cs := rfl
    rw [hrun]
    obtain ⟨h1, h2, h3⟩ := ih (p.getState c) hfit1 hinv1
    exact ⟨h1, h2.trans hreg, h3.trans hav⟩

/-! ## Claims about the model pool -/

/-- A registry giving one model a footprint larger than the whole budget:
the configuration §7 of the spec calls a misconfiguration. -/
def overReg : Registry := [("flux_dev", 12)]

/-- C1 counterexample: with budget 10 and registered footprint
`flux_dev = 12`, a single `get("flux_dev")` from the empty pool leaves the
sum of resident footprints (and `used_vram`) at 12 > 10, so the invariant
claimed for *every* sequence of `get` calls fails. -/
theorem C1_counterexample :
    (runCalls (ModelPool.init overReg 10) ["flux_dev"]).available_vram <
      sumFp overReg (runCalls (ModelPool.init overReg 10) ["flux_dev"]).pool ∧
    (runCalls (ModelPool.init overReg 10) ["flux_dev"]).available_vram <
      (runCalls (ModelPool.init overReg 10) ["flux_dev"]).used_vram := by
  decide

/-- C1 (amended): provided the configuration is well formed — every
footprint the registry can yield (the 4 GB default included) is
nonnegative and at most the budget — then after every sequence of
`ModelPool.get` calls from a fresh pool, the sum of the registered
footprints of the resident entries is at most the budget, and `used_vram`
never exceeds `available_vram`. -/
theorem C1_budget_invariant (reg : Registry) (avail : Int)
    (Hfit : FitsBudget reg avail) (calls : List String) :
    sumFp reg (runCalls (ModelPool.init reg avail) calls).pool ≤ avail ∧
    (runCalls (ModelPool.init reg avail) calls).used_vram ≤ avail := by
  have hinit : PoolInv (ModelPool.init reg avail) := by
    refine ⟨rfl, ?_, List.nodup_nil⟩
    have h0 : (0:Int) ≤ modelVram reg "" := (Hfit "").1
    have h1 : modelVram reg "" ≤ avail := (Hfit "").2
    show (0:Int) ≤ avail
    omega
  obtain ⟨⟨hsum, hle, _⟩, hreg, hav⟩ :=
    runCalls_inv calls (ModelPool.init reg avail) Hfit hinit
  have hreg2 : (runCalls (ModelPool.init reg avail) calls).registry = reg := hreg
  have hav2 : (runCalls (ModelPool.init reg avail) calls).available_vram = avail := hav
  rw [hreg2] at hsum
  exact ⟨by omega, by omega⟩

/-- C1 witness: the empty registry (every model gets the 4 GB default)
with budget 10 satisfies the fitness hypothesis, and a concrete call
sequence keeps the invariant. -/
theorem C1_budget_invariant_witness :
    FitsBudget [] 10 ∧
    (sumFp [] (runCalls (ModelPool.init [] 10) ["kokoro", "flux_dev", "kokoro"]).pool ≤ 10 ∧
     (runCalls (ModelPool.init [] 10) ["kokoro", "flux_dev", "kokoro"]).used_vram ≤ 10) := by
  have hfit : FitsBudget [] 10 := by
    intro n
    constructor <;> simp [modelVram]
  exact ⟨hfit, C1_budget_invariant [] 10 hfit ["kokoro", "flux_dev", "kokoro"]⟩

/-- C2 counterexample: with budget 10 and registered footprint
`flux_dev = 12`, `get("flux_dev")` on a cache miss does *not* fail with
any `InsufficientBudget` error and *does* insert the model: it returns
`.ok` with a handle, the model resident and `used_vram` at 12 > 10 — the
claimed failure path does not exist in the code. -/
theorem C2_no_insufficient_budget_check :
    (ModelPool.init overReg 10).get "flux_dev" =
      .ok (0, { registry := overReg, available_vram := 10, used_vram := 12,
                pool := [("flux_dev", 0)], loadSeq := 1,
                loadEvents := ["flux_dev"] }) ∧
    (10:Int) < 12 := by
  exact ⟨rfl, by decide⟩

/-- When the needed footprint alone exceeds the budget, the eviction
`while` loop empties the pool entirely: its guard `used + needed > avail`
can never become false because `used` is clamped at ≥ 0, so only the
`self._pool` conjunct stops the loop.  The clamped `used` stays ≥ 0. -/
theorem evictLoop_empties (reg : Registry) (avail needed : Int)
    (hover : avail < needed) :
    ∀ (l : List (String × Nat)) (used : Int), 0 ≤ used →
      (evictLoop reg avail needed used l).2 = [] ∧
      0 ≤ (evictLoop reg avail needed used l).1 := by
  intro l
  induction l with
  | nil => intro used hu; exact ⟨rfl, hu⟩
  | cons a rest ih =>
    intro used hu
    obtain ⟨name, hdl⟩ := a
    have hcond : used + needed > avail := by omega
    simp only [evictLoop, if_pos hcond]
    exact ih _ (le_max_left 0 _)

/-- C2 (amended): for every model with a registered loader whose
registered footprint exceeds the total budget, `ModelPool.get` on a cache
miss does evict all resident entries, but then — instead of failing with
`InsufficientBudget` — loads the model anyway: it returns a handle, the
model becomes the sole resident entry, and `used_vram` ends strictly
above `available_vram`.  No error is raised. -/
theorem C2_loads_over_budget (p : ModelPool) (n : String)
    (hmiss : p.pool.find? (fun x => x.1 == n) = none)
    (hload : LOADERS.contains n = true)
    (hused : 0 ≤ p.used_vram)
    (hover : p.available_vram < p.model_vram n) :
    ∃ u, p.get n = .ok (p.loadSeq,
      { registry := p.registry, available_vram := p.available_vram,
        used_vram := u + p.model_vram n, pool := [(n, p.loadSeq)],
        loadSeq := p.loadSeq + 1, loadEvents := p.loadEvents ++ [n] }) ∧
      0 ≤ u ∧ p.available_vram < u + p.model_vram n := by
  have hemp := evictLoop_empties p.registry p.available_vram (p.model_vram n)
    hover p.pool p.used_vram hused
  have hpool : (p.evict_lru (p.model_vram n)).pool = [] := hemp.1
  have hu : 0 ≤ (p.evict_lru (p.model_vram n)).used_vram := hemp.2
  refine ⟨(p.evict_lru (p.model_vram n)).used_vram, ?_, hu, by omega⟩
  rw [get_miss_ok p n hmiss hload, hpool]
  simp

/-- Pool with `kokoro` resident (4 GB default footprint) under budget 10,
while the registry gives `flux_dev` a 12 GB footprint — more than the
whole budget. -/
def c2Pool : ModelPool :=
  { registry := overReg, available_vram := 10, used_vram := 4,
    pool := [("kokoro", 0)], loadSeq := 1, loadEvents := ["kokoro"] }

/-- C2 witness: the amended statement at a concrete over-budget request;
the resident `kokoro` is evicted, then `flux_dev` is loaded anyway and
`used_vram` ends at 12 > 10. -/
theorem C2_loads_over_budget_witness :
    ∃ u, c2Pool.get "flux_dev" = .ok (1,
      { registry := c2Pool.registry, available_vram := c2Pool.available_vram,
        used_vram := u + 12, pool := [("flux_dev", 1)],
        loadSeq := 2, loadEvents := ["kokoro", "flux_dev"] }) ∧
      0 ≤ u ∧ (10:Int) < u + 12 :=
  C2_loads_over_budget c2Pool "flux_dev" rfl rfl (by decide) (by decide)

/-- Registry for the spec's concrete eviction scenario: three registered
loader models in the roles A (`flux_dev`, footprint 6), B
(`hunyuan_video`, footprint 6) and C (`kokoro`, footprint 4). -/
def scenRegistry : Registry :=
  [("flux_dev", 6), ("hunyuan_video", 6), ("kokoro", 4)]

def scenP1 : ModelPool := (ModelPool.init scenRegistry 10).getState "flux_dev"

def scenP2 : ModelPool := scenP1.getState "hunyuan_video"

def scenP3 : ModelPool := scenP2.getState "kokoro"

def scenP4 : ModelPool := scenP3.getState "flux_dev"

/-- C3: the concrete eviction scenario with budget 10 and footprints
A=6, B=6, C=4.  After `get(A)`: resident `{A}`, used 6.  `get(B)` first
evicts A (the eviction loop leaves used 0 and an empty pool), then loads
B: resident `{B}`, used 6.  `get(C)`: no eviction (B stays resident,
appended after it), resident `{B, C}`, used 10.  The second `get(A)`
first evicts exactly the least-recently-used entry B (used drops to 4, C
stays), then loads A: resident `{C, A}`, used 10.  Lists are ordered
oldest-first, so the final order also shows C was retained over B. -/
theorem C3_eviction_scenario :
    (keys scenP1.pool = ["flux_dev"] ∧ scenP1.used_vram = 6) ∧
    ((scenP1.evict_lru 6).used_vram = 0 ∧ (scenP1.evict_lru 6).pool = []) ∧
    (keys scenP2.pool = ["hunyuan_video"] ∧ scenP2.used_vram = 6) ∧
    (keys scenP3.pool = ["hunyuan_video", "kokoro"] ∧ scenP3.used_vram = 10 ∧
      scenP3.pool = scenP2.pool ++ [("kokoro", 2)]) ∧
    ((scenP3.evict_lru 6).used_vram = 4 ∧ keys (scenP3.evict_lru 6).pool = ["kokoro"]) ∧
    (keys scenP4.pool = ["kokoro", "flux_dev"] ∧ scenP4.used_vram = 10) := by
  decide

/-- C8: if a `get` succeeded, the immediately following `get` of the same
model is a cache hit: it returns the very same handle, performs no loader
invocation (`loadEvents` unchanged), leaves `used_vram` and the resident
name set unchanged, and moves the entry to the most-recently-used
position.  Moreover if the first call was a miss it invoked the loader
exactly once, so across the two calls the loader runs exactly once. -/
theorem C8_cache_hit (p : ModelPool) (n : String) (h1 : Nat) (p1 : ModelPool)
    (hget : p.get n = .ok (h1, p1)) :
    ∃ p2, p1.get n = .ok (h1, p2) ∧
      p2.loadEvents = p1.loadEvents ∧
      p2.used_vram = p1.used_vram ∧
      (∀ m, m ∈ keys p2.pool ↔ m ∈ keys p1.pool) ∧
      p2.pool.getLast? = some (n, h1) ∧
      (p.pool.find? (fun x => x.1 == n) = none →
        p1.loadEvents = p.loadEvents ++ [n]) := by
  have key : p1.pool.find? (fun x => x.1 == n) = some (n, h1) ∧
      (p.pool.find? (fun x => x.1 == n) = none →
        p1.loadEvents = p.loadEvents ++ [n]) := by
    cases hf : p.pool.find? (fun x => x.1 == n) with
    | some e =>
      rw [get_hit p n e hf] at hget
      have hh : e.2 = h1 ∧
          { p with pool := p.pool.filter (fun x => !(x.1 == n)) ++ [(n, e.2)] } = p1 := by
        simpa using hget
      obtain ⟨hh1, hh2⟩ := hh
      constructor
      · rw [← hh2]
        show (p.pool.filter (fun x => !(x.1 == n)) ++ [(n, e.2)]).find?
            (fun x => x.1 == n) = some (n, h1)
        rw [hh1]
        refine find?_append_matchLast _ n h1 ?_
        intro x hx
        have hx2 := (List.mem_filter.mp hx).2
        revert hx2
        cases (x.1 == n) <;> simp
      · intro hnone
        exact Option.noConfusion hnone
    | none =>
      cases hc : LOADERS.contains n with
      | false =>
        rw [get_miss_err p n hf hc] at hget
        cases hget
      | true =>
        rw [get_miss_ok p n hf hc] at hget
        have hh : p.loadSeq = h1 ∧
            { registry := p.registry, available_vram := p.available_vram,
              used_vram := (p.evict_lru (p.model_vram n)).used_vram + p.model_vram n,
              pool := (p.evict_lru (p.model_vram n)).pool ++ [(n, p.loadSeq)],
              loadSeq := p.loadSeq + 1,
              loadEvents := p.loadEvents ++ [n] } = p1 := by
          simpa using hget
        obtain ⟨hh1, hh2⟩ := hh
        constructor
        · rw [← hh2]
          show ((p.evict_lru (p.model_vram n)).pool ++ [(n, p.loadSeq)]).find?
              (fun x => x.1 == n) = some (n, h1)
          rw [hh1]
          refine find?_append_matchLast _ n h1 ?_
          intro x hx
          have hsub : x ∈ p.pool := by
            have hsuf := evictLoop_suffix p.registry p.available_vram
              (p.model_vram n) p.pool p.used_vram
            exact hsuf.sublist.subset hx
          have hx2 := List.find?_eq_none.mp hf x hsub
          revert hx2
          cases (x.1 == n) <;> simp
        · intro _
          rw [← hh2]
  obtain ⟨hfind1, hcond⟩ := key
  have hmem : n ∈ keys p1.pool :=
    (mem_keys_of_find?_some p1.pool n (n, h1) hfind1).1
  refine ⟨{ p1 with pool := p1.pool.filter (fun x => !(x.1 == n)) ++ [(n, h1)] },
    ?_, rfl, rfl, ?_, ?_, hcond⟩
  · exact get_hit p1 n (n, h1) hfind1
  · intro m
    exact mem_keys_moveToEnd p1.pool n h1 hmem m
  · exact List.getLast?_concat _

/-- The state after `get("kokoro")` on a fresh pool with empty registry
and budget 10: `kokoro` resident with the 4 GB default footprint. -/
def hitP1 : ModelPool :=
  { registry := [], available_vram := 10, used_vram := 4,
    pool := [("kokoro", 0)], loadSeq := 1, loadEvents := ["kokoro"] }

/-- C8 witness: the theorem applied to the concrete first call
`get("kokoro")` on a fresh pool. -/
theorem C8_cache_hit_witness :
    ∃ p2, hitP1.get "kokoro" = .ok (0, p2) ∧
      p2.loadEvents = hitP1.loadEvents ∧
      p2.used_vram = hitP1.used_vram ∧
      (∀ m, m ∈ keys p2.pool ↔ m ∈ keys hitP1.pool) ∧
      p2.pool.getLast? = some ("kokoro", 0) ∧
      ((ModelPool.init [] 10).pool.find? (fun x => x.1 == "kokoro") = none →
        hitP1.loadEvents = (ModelPool.init [] 10).loadEvents ++ ["kokoro"]) :=
  C8_cache_hit (ModelPool.init [] 10) "kokoro" 0 hitP1 rfl

/-! ## Claims about admission, task routes and the executor -/

/-- C4: on every generation endpoint, whenever the caller's balance is
strictly below the endpoint's fixed cost, the request fails with HTTP 402
(`InsufficientCredits`) and the store is returned unchanged — no task
record is created, because the `require_credits` dependency runs before
`_create_task`. -/
theorem C4_insufficient_credits (endpoint : String) (cost : Int)
    (model : String) (webhook_url : Option String) (api_key : ApiKey)
    (newId : String) (now : Nat) (store : Store)
    (hc : endpointCost endpoint = some cost)
    (hb : api_key.credit_balance < cost) :
    submit endpoint model webhook_url api_key newId now store =
      (.error ⟨402, "You do not have enough credits to run this task."⟩, store) := by
  simp [submit, hc, require_credits, hb]

/-- C4 witness: balance 1 against the cost-2 `text_to_image` endpoint. -/
theorem C4_insufficient_credits_witness :
    submit "text_to_image" "flux_schnell" none ⟨"k1", 1⟩ "t1" 0 ⟨[]⟩ =
      (.error ⟨402, "You do not have enough credits to run this task."⟩, ⟨[]⟩) :=
  C4_insufficient_credits "text_to_image" 2 "flux_schnell" none ⟨"k1", 1⟩
    "t1" 0 ⟨[]⟩ rfl (by decide)

/-- C5 counterexample: a well-funded submission of an unknown model to
`text_to_image` does fail with 422 `Unknown model`, but the store is not
left unchanged: the PENDING task row was committed by `_create_task`
before `_enqueue` performed the model check, so a task record exists. -/
theorem C5_counterexample :
    (submit "text_to_image" "not_a_model" none ⟨"k1", 100⟩ "t1" 0 ⟨[]⟩).1 =
      .error ⟨422, "Unknown model: not_a_model"⟩ ∧
    (submit "text_to_image" "not_a_model" none ⟨"k1", 100⟩ "t1" 0 ⟨[]⟩).2.tasks =
      [{ id := "t1", status := "PENDING", model := "not_a_model",
         endpoint := "text_to_image", created_at := 0, started_at := none,
         ended_at := none, progress := 0, output_urls := none, error := none,
         webhook_url := none, api_key_id := some "k1" }] ∧
    (submit "text_to_image" "not_a_model" none ⟨"k1", 100⟩ "t1" 0 ⟨[]⟩).2 ≠
      (⟨[]⟩ : Store) := by
  refine ⟨rfl, rfl, ?_⟩
  decide

/-- C5 (amended): for every submission whose model does not resolve in
`MODEL_TASK_MAP` (and whose credit check passes), submit fails with the
`Unknown model` 422 error, but only after the PENDING task record has been
persisted to the store; the task is never enqueued and stays PENDING. -/
theorem C5_unknown_model (endpoint : String) (cost : Int) (model : String)
    (webhook_url : Option String) (api_key : ApiKey) (newId : String)
    (now : Nat) (store : Store)
    (hc : endpointCost endpoint = some cost)
    (hb : ¬ api_key.credit_balance < cost)
    (hm : MODEL_TASK_MAP.find? (fun x => x.1 == model) = none) :
    submit endpoint model webhook_url api_key newId now store =
      (.error ⟨422, "Unknown model: " ++ model⟩,
        ⟨store.tasks ++ [create_task api_key model endpoint webhook_url newId now]⟩) ∧
    (create_task api_key model endpoint webhook_url newId now).status = "PENDING" := by
  constructor
  · simp [submit, hc, require_credits, hb, enqueue, create_task, hm]
  · rfl

/-- C5 witness: the amended statement at the concrete failing input. -/
theorem C5_unknown_model_witness :
    submit "text_to_image" "not_a_model" none ⟨"k1", 100⟩ "t1" 0 ⟨[]⟩ =
      (.error ⟨422, "Unknown model: not_a_model"⟩,
        ⟨[] ++ [create_task ⟨"k1", 100⟩ "not_a_model" "text_to_image" none "t1" 0]⟩) ∧
    (create_task ⟨"k1", 100⟩ "not_a_model" "text_to_image" none "t1" 0).status =
      "PENDING" :=
  C5_unknown_model "text_to_image" 2 "not_a_model" none ⟨"k1", 100⟩ "t1" 0 ⟨[]⟩
    rfl (by decide) (by decide)

/-- C9: task access is owner-scoped.  If the store holds no task whose id
is `task_id` *and* whose `api_key_id` is the calling key's id — even if a
task with that id exists under a different key — then `GET` and `DELETE`
on `/v1/tasks/{task_id}` both answer 404 `Task not found` and the store is
unchanged. -/
theorem C9_owner_scoped (task_id : String) (api_key : ApiKey) (store : Store)
    (hno : ∀ t ∈ store.tasks, ¬ (t.id = task_id ∧ t.api_key_id = some api_key.id)) :
    get_task task_id api_key store = .error ⟨404, "Task not found"⟩ ∧
    cancel_task task_id api_key store = (.error ⟨404, "Task not found"⟩, store) := by
  have hfind : findOwnedTask store task_id api_key.id = none := by
    refine List.find?_eq_none.mpr ?_
    intro t ht
    have := hno t ht
    simp only [Bool.and_eq_true, beq_iff_eq]
    intro hcon
    exact this ⟨hcon.1, hcon.2⟩
  constructor
  · simp [get_task, hfind]
  · simp [cancel_task, hfind]

/-- A task owned by key `other`, used to witness the owner-scoping claim. -/
def otherTask : Task :=
  { id := "t1", status := "PENDING", model := "flux_dev",
    endpoint := "text_to_image", created_at := 0, started_at := none,
    ended_at := none, progress := 0, output_urls := none, error := none,
    webhook_url := none, api_key_id := some "other" }

/-- C9 witness: a task with the requested id exists but belongs to key
`other`; the caller `me` gets 404 from both routes and nothing changes. -/
theorem C9_owner_scoped_witness :
    get_task "t1" ⟨"me", 0⟩ ⟨[otherTask]⟩ = .error ⟨404, "Task not found"⟩ ∧
    cancel_task "t1" ⟨"me", 0⟩ ⟨[otherTask]⟩ =
      (.error ⟨404, "Task not found"⟩, ⟨[otherTask]⟩) :=
  C9_owner_scoped "t1" ⟨"me", 0⟩ ⟨[otherTask]⟩ (by decide)

/-- The PENDING task cancelled in the C6 failing input. -/
def c6Task : Task :=
  { id := "t1", status := "PENDING", model := "flux_dev",
    endpoint := "text_to_image", created_at := 0, started_at := none,
    ended_at := none, progress := 0, output_urls := none, error := none,
    webhook_url := none, api_key_id := some "k1" }

/-- The row the cancel route writes for `c6Task`: FAILED with the error
message, `ended_at` untouched. -/
def c6Cancelled : Task :=
  { c6Task with status := "FAILED", error := some "Cancelled by user" }

/-- C6: evaluating the code on the failing input.  Cancelling an owned
PENDING task does set status FAILED and the error message, but leaves
`ended_at` unset, so the resulting task violates `endedAt`-iff-terminal:
it is terminal (FAILED) with no `endedAt`. -/
theorem C6_cancel_skips_endedAt :
    (cancel_task "t1" ⟨"k1", 0⟩ ⟨[c6Task]⟩).1 = .ok () ∧
    (cancel_task "t1" ⟨"k1", 0⟩ ⟨[c6Task]⟩).2.tasks = [c6Cancelled] ∧
    c6Cancelled.status = "FAILED" ∧
    c6Cancelled.ended_at = none ∧
    ¬ endedIffTerminal c6Cancelled := by
  refine ⟨rfl, rfl, rfl, rfl, ?_⟩
  intro h
  have h2 := h.mpr (Or.inr rfl)
  simp [c6Cancelled, c6Task] at h2

/-- The webhook-configured task used in the C7 failing input. -/
def c7Task : Task :=
  { id := "t1", status := "PENDING", model := "flux_schnell",
    endpoint := "text_to_image", created_at := 0, started_at := none,
    ended_at := none, progress := 0, output_urls := none, error := none,
    webhook_url := some "https://example.com/cb", api_key_id := some "k1" }

/-- C7 counterexample: a task with a webhook configured whose backend
raises is terminalized as FAILED, yet the worker attempts no webhook
delivery at all — `_fire_webhook` is reached only on the success path, so
the "exactly once after any terminal state" claim fails. -/
theorem C7_counterexample :
    (generate_image (.error "CUDA out of memory") true "t1" 5 ⟨[c7Task]⟩).2 = [] ∧
    (generate_image (.error "CUDA out of memory") true "t1" 5 ⟨[c7Task]⟩).1.tasks =
      [{ c7Task with status := "FAILED", started_at := some 5, progress := 30,
                     error := some "CUDA out of memory", ended_at := some 5 }] ∧
    ({ c7Task with status := "FAILED", started_at := some 5, progress := 30,
                   error := some "CUDA out of memory",
                   ended_at := some 5 } : Task).status = "FAILED" := by
  exact ⟨rfl, rfl, rfl⟩

/-- C7 (amended): for every executed task with a webhook configured, the
worker attempts delivery exactly once when the terminal state is
SUCCEEDED (with payload id, terminal status and output), attempts no
delivery when the terminal state is FAILED, and the delivery outcome
(success or failure) never changes the store — no task field depends on
it. -/
theorem C7_webhook_success_only (backend : Except String String)
    (deliveryOk : Bool) (task_id : String) (now : Nat) (store : Store)
    (t : Task) (w : String)
    (hfind : store.tasks.find? (fun u => u.id == task_id) = some t)
    (hw : t.webhook_url = some w) :
    (∀ url, backend = .ok url →
      (generate_image backend deliveryOk task_id now store).2 =
        [⟨w, t.id, "SUCCEEDED", [url]⟩]) ∧
    (∀ e, backend = .error e →
      (generate_image backend deliveryOk task_id now store).2 = []) ∧
    (generate_image backend true task_id now store).1 =
      (generate_image backend false task_id now store).1 := by
  refine ⟨?_, ?_, ?_⟩
  · intro url hb
    subst hb
    simp [generate_image, hfind, fire_webhook, hw]
  · intro e hb
    subst hb
    simp [generate_image, hfind]
  · cases backend with
    | error e => simp [generate_image, hfind]
    | ok url => simp [generate_image, hfind]

/-- C7 witness: the amended statement at a concrete successful run of the
webhook-configured task. -/
theorem C7_webhook_success_only_witness :
    (∀ url, (Except.ok "https://minio/out.png" : Except String String) = .ok url →
      (generate_image (.ok "https://minio/out.png") true "t1" 5 ⟨[c7Task]⟩).2 =
        [⟨"https://example.com/cb", c7Task.id, "SUCCEEDED", [url]⟩]) ∧
    (∀ e, (Except.ok "https://minio/out.png" : Except String String) = .error e →
      (generate_image (.ok "https://minio/out.png") true "t1" 5 ⟨[c7Task]⟩).2 = []) ∧
    (generate_image (.ok "https://minio/out.png") true "t1" 5 ⟨[c7Task]⟩).1 =
      (generate_image (.ok "https://minio/out.png") false "t1" 5 ⟨[c7Task]⟩).1 :=
  C7_webhook_success_only (.ok "https://minio/out.png") true "t1" 5 ⟨[c7Task]⟩
    c7Task "https://example.com/cb" rfl rfl

/-! ## Claims about concurrent workers -/

/-- `get` of a model with a registered loader always succeeds. -/
theorem get_isOk_of_loader (p : ModelPool) (n : String)
    (hc : LOADERS.contains n = true) :
    ∃ h p1, p.get n = .ok (h, p1) := by
  cases hf : p.pool.find? (fun x => x.1 == n) with
  | some e => exact ⟨e.2, _, get_hit p n e hf⟩
  | none => exact ⟨p.loadSeq, _, get_miss_ok p n hf hc⟩

/-- C10 counterexample: two workers both requesting `kokoro` on a fresh
pool with budget 10.  Under the interleaving first-gets-first,
second-gets-second, both-begin-invoking, the system reaches a state in
which both workers are simultaneously inside the backend invocation
window on the *same* handle 0 — the code takes no lock of any kind, so
nothing serializes same-model invocations. -/
theorem C10_counterexample :
    (runSched (initTwo [] 10 "kokoro" "kokoro") [true, false, true, false]).w1 =
      .invoking 0 ∧
    (runSched (initTwo [] 10 "kokoro" "kokoro") [true, false, true, false]).w2 =
      .invoking 0 := by
  decide

/-- C10 (amended): what does hold is the non-blocking half of the claim —
for any two workers requesting models with registered loaders (the same
model or distinct ones), every step is always enabled and round-robin
scheduling drives both to completion; no worker ever waits on the other,
because the pool performs no locking at all.  (The serialization half is
false: see the overlapping-windows counterexample.) -/
theorem C10_no_blocking (reg : Registry) (avail : Int) (m1 m2 : String)
    (h1 : LOADERS.contains m1 = true) (h2 : LOADERS.contains m2 = true) :
    (runSched (initTwo reg avail m1 m2)
      [true, false, true, false, true, false]).w1 = .finished ∧
    (runSched (initTwo reg avail m1 m2)
      [true, false, true, false, true, false]).w2 = .finished := by
  obtain ⟨a1, q1, hq1⟩ := get_isOk_of_loader (ModelPool.init reg avail) m1 h1
  obtain ⟨a2, q2, hq2⟩ := get_isOk_of_loader q1 m2 h2
  simp [runSched, initTwo, sysStep, wstep, hq1, hq2]

/-- C10 witness: the amended statement for two distinct registered models
on a fresh pool. -/
theorem C10_no_blocking_witness :
    (runSched (initTwo [] 10 "kokoro" "flux_dev")
      [true, false, true, false, true, false]).w1 = .finished ∧
    (runSched (initTwo [] 10 "kokoro" "flux_dev")
      [true, false, true, false, true, false]).w2 = .finished :=
  C10_no_blocking [] 10 "kokoro" "flux_dev" (by decide) (by decide)

end Opensway
